import Mathlib

/-!
A shallow embedding of `src/lib.rs` of the `atm_parser_helper` crate: a cursor
(`ParserHelper`) over an immutable byte buffer, with position-tagged errors.

Modelling conventions:
* bytes are `Nat` (their numeric value; no arithmetic overflows a byte here),
  the buffer is a `List Nat`, `usize` positions are `Nat`;
* Rust `Result<T, Error<E>>` is `Except (Error E) T`;
* methods taking `&mut self` return their result paired with the new state;
  methods taking `&self` return only their result (they cannot mutate);
* slice indexing out of bounds panics in Rust; operations that can panic
  (`slice`, `rest`, and their callers `advance_over`, `expect_bytes`) return
  an `Option`, with `none` modelling the panic.
-/

/-- The `Eoi` trait: error types with a canonical value denoting an unexpected
end of the parsed input. -/
class Eoi (E : Type) where
  eoi : E

/-- `Error<E>`: a parse error, tagging an arbitrary error type with an input
position. -/
structure Error (E : Type) where
  position : Nat
  e : E
deriving DecidableEq

/-- `Error::new(position, e)`. -/
def Error.new {E : Type} (position : Nat) (e : E) : Error E :=
  { position := position, e := e }

/-- `ParserHelper`: a slice of input bytes plus the current read position. -/
structure ParserHelper where
  input : List Nat
  position : Nat
deriving DecidableEq

namespace ParserHelper

/-- `ParserHelper::new(input)`: parse from a slice of bytes, position 0. -/
def new (input : List Nat) : ParserHelper :=
  { input := input, position := 0 }

/-- `len()`: total length of the input. -/
def len (s : ParserHelper) : Nat :=
  s.input.length

/-- `slice(a..b)`: a view into the original input; `none` models the Rust
panic when the range `a..b` is out of bounds for the buffer. -/
def slice (s : ParserHelper) (a b : Nat) : Option (List Nat) :=
  if a ≤ b ∧ b ≤ s.input.length then some ((s.input.drop a).take (b - a))
  else none

/-- `rest()`: `slice(position..)`, the portion of the buffer yet to be parsed;
`none` models the panic of `&input[position..]` when `position > len`. -/
def rest (s : ParserHelper) : Option (List Nat) :=
  if s.position ≤ s.input.length then some (s.input.drop s.position)
  else none

/-- `fail_at_position(reason, position)`: produce an error at the given
position (the receiver is borrowed immutably and unused). -/
def fail_at_position {T E : Type} (_s : ParserHelper) (reason : E)
    (position : Nat) : Except (Error E) T :=
  Except.error (Error.new position reason)

/-- `fail(reason)`: produce an error at the current position. -/
def fail {T E : Type} (s : ParserHelper) (reason : E) : Except (Error E) T :=
  s.fail_at_position reason s.position

/-- `unexpected_end_of_input()`: `fail(E::eoi())`. -/
def unexpected_end_of_input {T E : Type} [Eoi E] (s : ParserHelper) :
    Except (Error E) T :=
  s.fail Eoi.eoi

/-- `advance(offset)`: unconditionally add `offset` to the position. -/
def advance (s : ParserHelper) (offset : Nat) : ParserHelper :=
  { s with position := s.position + offset }

/-- `advance_over(expected)`: advance over `expected` if `rest()` starts with
it, returning whether it did advance; `none` models the panic of `rest()`
when `position > len`. -/
def advance_over (s : ParserHelper) (expected : List Nat) :
    Option (Bool × ParserHelper) :=
  match s.rest with
  | none => none
  | some r =>
    if expected.isPrefixOf r then some (true, s.advance expected.length)
    else some (false, s)

/-- `advance_or(offset, e)`: advance by `offset`, then error (tagged at the
pre-advance position) if the new position exceeds the input length. -/
def advance_or {E : Type} (s : ParserHelper) (offset : Nat) (e : E) :
    Except (Error E) Unit × ParserHelper :=
  let start := s.position
  let t := s.advance offset
  if t.len < t.position then (t.fail_at_position e start, t)
  else (Except.ok (), t)

/-- `next()`: consume and return the next byte, or signal unexpected end of
input (`input.get(position)` is `input[position]?`). -/
def next {E : Type} [Eoi E] (s : ParserHelper) :
    Except (Error E) Nat × ParserHelper :=
  match s.input[s.position]? with
  | some c => (Except.ok c, s.advance 1)
  | none => (s.unexpected_end_of_input, s)

/-- `next_or_end()`: consume and return the next byte, or `none` at end of
input. -/
def next_or_end (s : ParserHelper) : Option Nat × ParserHelper :=
  match s.input[s.position]? with
  | some c => (some c, s.advance 1)
  | none => (none, s)

/-- `expect(expected, err)`: consume the next byte (`self.next()?` propagates
the end-of-input error and its state); if it differs from `expected`, fail
with `err` at the position before consumption. -/
def expect {E : Type} [Eoi E] (s : ParserHelper) (expected : Nat) (err : E) :
    Except (Error E) Unit × ParserHelper :=
  let pos := s.position
  match s.next (E := E) with
  | (Except.error er, t) => (Except.error er, t)
  | (Except.ok c, t) =>
    if c = expected then (Except.ok (), t)
    else (t.fail_at_position err pos, t)

/-- `expect_bytes(exp, err)`: advance over `exp` if `rest()` starts with it,
otherwise fail with `err` at the current position; `none` models the panic of
`rest()` when `position > len`. -/
def expect_bytes {E : Type} (s : ParserHelper) (exp : List Nat) (err : E) :
    Option (Except (Error E) Unit × ParserHelper) :=
  match s.rest with
  | none => none
  | some r =>
    if exp.isPrefixOf r then some (Except.ok (), s.advance exp.length)
    else some (s.fail err, s)

/-- `expect_pred(pred, err)`: consume the next byte; if the predicate rejects
it, fail with `err` at the position before consumption. -/
def expect_pred {E : Type} [Eoi E] (s : ParserHelper) (pred : Nat → Bool)
    (err : E) : Except (Error E) Unit × ParserHelper :=
  let pos := s.position
  match s.next (E := E) with
  | (Except.error er, t) => (Except.error er, t)
  | (Except.ok c, t) =>
    if pred c then (Except.ok (), t)
    else (t.fail_at_position err pos, t)

/-- `peek()`: return the next byte without consuming it, or signal unexpected
end of input. Borrows immutably: no state is returned. -/
def peek {E : Type} [Eoi E] (s : ParserHelper) : Except (Error E) Nat :=
  match s.input[s.position]? with
  | some c => Except.ok c
  | none => s.unexpected_end_of_input

/-- `peek_or_end()`: the next byte without consuming it, or `none` at end of
input. -/
def peek_or_end (s : ParserHelper) : Option Nat :=
  s.input[s.position]?

/-- `skip(pred)`: consume bytes while `pred` holds on the next byte; stop at
the first non-matching byte or at end of input. -/
def skip (s : ParserHelper) (pred : Nat → Bool) : ParserHelper :=
  match h : s.peek_or_end with
  | none => s
  | some peeked =>
    if pred peeked then (s.advance 1).skip pred
    else s
termination_by s.input.length - s.position
decreasing_by
  simp only [peek_or_end] at h
  have hlt : s.position < s.input.length := by
    by_contra hge
    rw [List.getElem?_eq_none (by omega)] at h
    exact Option.noConfusion h
  simp [advance]
  omega

theorem skip_of_peek_none (s : ParserHelper) (pred : Nat → Bool)
    (h : s.peek_or_end = none) : s.skip pred = s := by
  rw [ParserHelper.skip.eq_def, h]

theorem skip_of_peek_true (s : ParserHelper) (pred : Nat → Bool) (b : Nat)
    (h : s.peek_or_end = some b) (hp : pred b = true) :
    s.skip pred = (s.advance 1).skip pred := by
  rw [ParserHelper.skip.eq_def, h]
  simp [hp]

theorem skip_of_peek_false (s : ParserHelper) (pred : Nat → Bool) (b : Nat)
    (h : s.peek_or_end = some b) (hp : pred b = false) :
    s.skip pred = s := by
  rw [ParserHelper.skip.eq_def, h]
  simp [hp]

end ParserHelper

instance {ε α : Type} [DecidableEq ε] [DecidableEq α] :
    DecidableEq (Except ε α) := fun a b =>
  match a, b with
  | .error e₁, .error e₂ =>
    if h : e₁ = e₂ then isTrue (h ▸ rfl)
    else isFalse (fun hh => h (by cases hh; rfl))
  | .error _, .ok _ => isFalse (fun hh => Except.noConfusion hh)
  | .ok _, .error _ => isFalse (fun hh => Except.noConfusion hh)
  | .ok a₁, .ok a₂ =>
    if h : a₁ = a₂ then isTrue (h ▸ rfl)
    else isFalse (fun hh => h (by cases hh; rfl))

/-- A sample error type implementing the `Eoi` capability, used for concrete
scenarios. -/
inductive TestErr where
  | a
  | b
  | overrun
  | endOfInput
deriving DecidableEq

instance : Eoi TestErr := ⟨TestErr.endOfInput⟩

example : (ParserHelper.new [97, 98]).expect 97 TestErr.a =
    (Except.ok (), ⟨[97, 98], 1⟩) := by decide

example : (ParserHelper.mk [97, 98] 1).expect 120 TestErr.b =
    (Except.error ⟨1, TestErr.b⟩, ⟨[97, 98], 2⟩) := by decide

example : (ParserHelper.mk [] 1).advance_over [0] = none := by decide

example : (ParserHelper.mk [0, 0, 0] 0).advance_or 5 TestErr.overrun =
    (Except.error ⟨0, TestErr.overrun⟩, ⟨[0, 0, 0], 5⟩) := by decide

example : (ParserHelper.mk [1, 2, 2, 3] 1).skip (fun x => x = 2) =
    ⟨[1, 2, 2, 3], 3⟩ := by
  rw [ParserHelper.skip_of_peek_true _ _ 2 (by decide) (by decide)]
  rw [ParserHelper.skip_of_peek_true _ _ 2 (by decide) (by decide)]
  rw [ParserHelper.skip_of_peek_false _ _ 3 (by decide) (by decide)]
  decide

/-- C8: `slice(0..length())` is the whole original buffer, no matter how far
the cursor has advanced (including past the end). -/
theorem slice_roundtrip (input : List Nat) (p : Nat) :
    (ParserHelper.mk input p).slice 0 (ParserHelper.mk input p).len =
      some input := by
  simp [ParserHelper.slice, ParserHelper.len]

/-- C2: `advance_or(n, e)` always sets the position to `p + n`; it returns an
error exactly when the new position exceeds the buffer length, that error
being `e` tagged at the pre-advance position `p` (the position stays at
`p + n`, not rolled back); otherwise it returns success. The second conjunct
is the concrete scenario: buffer length 3, `advance_or(5, Overrun)` fails
with `Error{position := 0, e := Overrun}` and the position is 5. -/
theorem advance_or_spec :
    (∀ (E : Type) (e : E) (input : List Nat) (p n : Nat),
      ((ParserHelper.mk input p).advance_or n e).2 =
          ParserHelper.mk input (p + n) ∧
      (input.length < p + n →
        ((ParserHelper.mk input p).advance_or n e).1 =
          Except.error ⟨p, e⟩) ∧
      (¬ input.length < p + n →
        ((ParserHelper.mk input p).advance_or n e).1 = Except.ok ())) ∧
    (ParserHelper.mk [0, 0, 0] 0).advance_or 5 TestErr.overrun =
      (Except.error ⟨0, TestErr.overrun⟩, ParserHelper.mk [0, 0, 0] 5) := by
  constructor
  · intro E e input p n
    refine ⟨?_, fun h => ?_, fun h => ?_⟩
    · simp only [ParserHelper.advance_or]
      split <;> rfl
    · simp [ParserHelper.advance_or, ParserHelper.advance, ParserHelper.len,
        ParserHelper.fail_at_position, Error.new, h]
    · simp [ParserHelper.advance_or, ParserHelper.advance, ParserHelper.len,
        ParserHelper.fail_at_position, Error.new, h]
  · decide

/-- Witness for C2: on the buffer `[7]`, `advance_or 3` overruns and reports
the pre-advance position 0 while the cursor ends at 3. -/
theorem advance_or_spec_witness :
    ((ParserHelper.mk [7] 0).advance_or 3 TestErr.a).1 =
        Except.error ⟨0, TestErr.a⟩ ∧
    ((ParserHelper.mk [7] 0).advance_or 3 TestErr.a).2 =
        ParserHelper.mk [7] 3 :=
  ⟨(advance_or_spec.1 TestErr TestErr.a [7] 0 3).2.1 (by decide),
   (advance_or_spec.1 TestErr TestErr.a [7] 0 3).1⟩

/-- C1: when a next byte exists and differs from the expected byte `e`,
`expect e err` returns the error `err` tagged at the pre-call position and
the cursor ends up exactly one byte further (the byte is consumed even on
mismatch). -/
theorem expect_mismatch_consumes (E : Type) [Eoi E] (input : List Nat)
    (p c e : Nat) (err : E) (hc : input[p]? = some c) (hne : c ≠ e) :
    (ParserHelper.mk input p).expect e err =
      (Except.error ⟨p, err⟩, ParserHelper.mk input (p + 1)) := by
  simp [ParserHelper.expect, ParserHelper.next, hc, ParserHelper.advance,
    hne, ParserHelper.fail_at_position, Error.new]

/-- Witness for C1: the spec's concrete scenario on buffer `"ab"` at
position 1: `expect(b'x', B)` fails at position 1 and moves to position 2. -/
theorem expect_mismatch_consumes_witness :
    (ParserHelper.mk [97, 98] 1).expect 120 TestErr.b =
      (Except.error ⟨1, TestErr.b⟩, ParserHelper.mk [97, 98] 2) :=
  expect_mismatch_consumes TestErr [97, 98] 1 98 120 TestErr.b (by decide)
    (by decide)

/-- C3: `next_or_end`/`peek_or_end` yield `none` iff position ≥ buffer
length; `next`/`peek` yield the end-of-input error `E::eoi()` tagged at the
current position under exactly the same condition; otherwise all four yield
the byte at the current position. -/
theorem end_of_input_conditions (E : Type) [Eoi E] (input : List Nat)
    (p : Nat) :
    ((ParserHelper.mk input p).next_or_end.1 = none ↔ input.length ≤ p) ∧
    ((ParserHelper.mk input p).peek_or_end = none ↔ input.length ≤ p) ∧
    (((ParserHelper.mk input p).next (E := E)).1 =
        Except.error ⟨p, Eoi.eoi⟩ ↔ input.length ≤ p) ∧
    ((ParserHelper.mk input p).peek (E := E) =
        Except.error ⟨p, Eoi.eoi⟩ ↔ input.length ≤ p) ∧
    (∀ b, input[p]? = some b →
      (ParserHelper.mk input p).next_or_end.1 = some b ∧
      (ParserHelper.mk input p).peek_or_end = some b ∧
      ((ParserHelper.mk input p).next (E := E)).1 = Except.ok b ∧
      (ParserHelper.mk input p).peek (E := E) = Except.ok b) := by
  cases hc : input[p]? with
  | none =>
    have hlen : input.length ≤ p := by
      by_contra hlt
      rw [List.getElem?_eq_getElem (by omega)] at hc
      exact Option.noConfusion hc
    simp [ParserHelper.next_or_end, ParserHelper.peek_or_end,
      ParserHelper.next, ParserHelper.peek,
      ParserHelper.unexpected_end_of_input, ParserHelper.fail,
      ParserHelper.fail_at_position, Error.new, hc, hlen]
  | some b =>
    have hlt : p < input.length := by
      by_contra hge
      rw [List.getElem?_eq_none (by omega)] at hc
      exact Option.noConfusion hc
    simp [ParserHelper.next_or_end, ParserHelper.peek_or_end,
      ParserHelper.next, ParserHelper.peek, hc]
    omega

/-- Witness for C3: on buffer `[5]` at position 0, all four operations yield
the byte 5. -/
theorem end_of_input_conditions_witness :
    (ParserHelper.mk [5] 0).next_or_end.1 = some 5 ∧
    (ParserHelper.mk [5] 0).peek_or_end = some 5 ∧
    ((ParserHelper.mk [5] 0).next (E := TestErr)).1 = Except.ok 5 ∧
    (ParserHelper.mk [5] 0).peek (E := TestErr) = Except.ok 5 :=
  (end_of_input_conditions TestErr [5] 0).2.2.2.2 5 (by decide)

/-- Counterexample to C4 as stated: at a position past the end of the buffer
(reachable via `advance`), `advance_over` panics — the slice indexing in
`rest()` (`&input[position..]` with `position > len`) is out of bounds — so
it returns neither `false` with the position unchanged nor `true` with the
position advanced, contrary to the claim's universal quantification over
every cursor position. -/
theorem advance_over_panic_cex :
    (ParserHelper.mk [] 1).advance_over [0] = none ∧
    (ParserHelper.mk [] 1).advance_over [0] ≠
      some (false, ParserHelper.mk [] 1) ∧
    (ParserHelper.mk [] 1).advance_over [0] ≠
      some (true, ParserHelper.mk [] 2) := by
  decide

/-- C4 (amended): for every position that is at most the buffer length,
`advance_over X` either advances by exactly `len(X)` and returns true
(exactly when the remainder starts with `X`), or leaves the position
unchanged and returns false; it never advances partially and has no error
path. -/
theorem advance_over_spec (input : List Nat) (p : Nat) (X : List Nat)
    (hp : p ≤ input.length) :
    (X.isPrefixOf (input.drop p) = true →
      (ParserHelper.mk input p).advance_over X =
        some (true, ParserHelper.mk input (p + X.length))) ∧
    (X.isPrefixOf (input.drop p) = false →
      (ParserHelper.mk input p).advance_over X =
        some (false, ParserHelper.mk input p)) := by
  constructor <;> intro h <;>
    simp [ParserHelper.advance_over, ParserHelper.rest, ParserHelper.advance,
      hp, h]

/-- Witness for C4 (amended): on buffer `[7, 8]`, `advance_over [7]`
advances to position 1 and returns true. -/
theorem advance_over_spec_witness :
    (ParserHelper.mk [7, 8] 0).advance_over [7] =
      some (true, ParserHelper.mk [7, 8] 1) :=
  (advance_over_spec [7, 8] 0 [7] (by decide)).1 (by decide)

/-- Counterexample to C5 as stated: at a position past the end of the buffer,
`expect_bytes` panics — the slice indexing in `rest()` is out of bounds — so
it does not return the claimed error with the position unchanged. -/
theorem expect_bytes_panic_cex :
    (ParserHelper.mk [] 1).expect_bytes [0] TestErr.b = none ∧
    (ParserHelper.mk [] 1).expect_bytes [0] TestErr.b ≠
      some (Except.error ⟨1, TestErr.b⟩, ParserHelper.mk [] 1) := by
  decide

/-- C5 (amended): for every position that is at most the buffer length, if
the remainder starts with `exp` then `expect_bytes exp err` succeeds and
advances by `len(exp)`; otherwise it fails with `err` tagged at the current
(pre-check) position and consumes nothing. -/
theorem expect_bytes_spec (E : Type) (err : E) (input : List Nat) (p : Nat)
    (exp : List Nat) (hp : p ≤ input.length) :
    (exp.isPrefixOf (input.drop p) = true →
      (ParserHelper.mk input p).expect_bytes exp err =
        some (Except.ok (), ParserHelper.mk input (p + exp.length))) ∧
    (exp.isPrefixOf (input.drop p) = false →
      (ParserHelper.mk input p).expect_bytes exp err =
        some (Except.error ⟨p, err⟩, ParserHelper.mk input p)) := by
  constructor <;> intro h <;>
    simp [ParserHelper.expect_bytes, ParserHelper.rest, ParserHelper.advance,
      ParserHelper.fail, ParserHelper.fail_at_position, Error.new, hp, h]

/-- Witness for C5 (amended): on buffer `[7]`, `expect_bytes [9]` fails at
position 0 and consumes nothing. -/
theorem expect_bytes_spec_witness :
    (ParserHelper.mk [7] 0).expect_bytes [9] TestErr.b =
      some (Except.error ⟨0, TestErr.b⟩, ParserHelper.mk [7] 0) :=
  (expect_bytes_spec TestErr TestErr.b [7] 0 [9] (by decide)).2 (by decide)

/-- Main helper about `skip`, by induction on the fuel bound
`input.length - position`: `skip` preserves the buffer, never moves the
position backwards, advances by at most `input.length - position` (one byte
per loop iteration), and stops either at end of input or at a byte the
predicate rejects. -/
theorem skip_main : ∀ (n : Nat) (s : ParserHelper) (pred : Nat → Bool),
    s.input.length - s.position ≤ n →
    (s.skip pred).input = s.input ∧
    s.position ≤ (s.skip pred).position ∧
    (s.skip pred).position - s.position ≤ s.input.length - s.position ∧
    ((s.skip pred).peek_or_end = none ∨
      ∃ b, (s.skip pred).peek_or_end = some b ∧ pred b = false) := by
  intro n
  induction n with
  | zero =>
    intro s pred hn
    have hpn : s.peek_or_end = none := by
      simp only [ParserHelper.peek_or_end]
      exact List.getElem?_eq_none (by omega)
    rw [ParserHelper.skip_of_peek_none s pred hpn]
    exact ⟨rfl, le_refl _, by omega, Or.inl hpn⟩
  | succ n ih =>
    intro s pred hn
    cases hpk : s.peek_or_end with
    | none =>
      rw [ParserHelper.skip_of_peek_none s pred hpk]
      exact ⟨rfl, le_refl _, by omega, Or.inl hpk⟩
    | some b =>
      cases hp : pred b with
      | false =>
        rw [ParserHelper.skip_of_peek_false s pred b hpk hp]
        exact ⟨rfl, le_refl _, by omega, Or.inr ⟨b, hpk, hp⟩⟩
      | true =>
        rw [ParserHelper.skip_of_peek_true s pred b hpk hp]
        have hlt : s.position < s.input.length := by
          simp only [ParserHelper.peek_or_end] at hpk
          by_contra hge
          rw [List.getElem?_eq_none (by omega)] at hpk
          exact Option.noConfusion hpk
        have ha2 : (s.advance 1).position = s.position + 1 := rfl
        have halen : (s.advance 1).input.length = s.input.length := rfl
        obtain ⟨h1, h2, h3, h4⟩ := ih (s.advance 1) pred (by omega)
        exact ⟨h1, by omega, by omega, h4⟩

/-- C6: the position is monotonically non-decreasing across every operation,
on success and failure alike. Operations that borrow the cursor immutably in
the source (`len`, `slice`, `rest`, `position`, `fail`, `fail_at_position`,
`unexpected_end_of_input`, `peek`, `peek_or_end`) are embedded without a
state component and cannot move the position at all; this theorem covers
every state-passing operation (`advance`, `advance_over`, `advance_or`,
`next`, `next_or_end`, `expect`, `expect_bytes`, `expect_pred`, `skip`),
including the failure outcomes, with the panicking out-of-bounds cases of
`advance_over`/`expect_bytes` producing no post-state at all. -/
theorem position_monotone (E : Type) [Eoi E] (s : ParserHelper) (n : Nat)
    (X : List Nat) (c : Nat) (e : E) (pred : Nat → Bool) :
    s.position ≤ (s.advance n).position ∧
    (∀ b t, s.advance_over X = some (b, t) → s.position ≤ t.position) ∧
    s.position ≤ (s.advance_or n e).2.position ∧
    s.position ≤ (s.next (E := E)).2.position ∧
    s.position ≤ s.next_or_end.2.position ∧
    s.position ≤ (s.expect c e).2.position ∧
    (∀ r t, s.expect_bytes X e = some (r, t) → s.position ≤ t.position) ∧
    s.position ≤ (s.expect_pred pred e).2.position ∧
    s.position ≤ (s.skip pred).position := by
  refine ⟨?_, ?_, ?_, ?_, ?_, ?_, ?_, ?_, ?_⟩
  · simp [ParserHelper.advance]
  · intro b t ht
    simp only [ParserHelper.advance_over] at ht
    cases hr : s.rest with
    | none => rw [hr] at ht; exact Option.noConfusion ht
    | some r =>
      simp only [hr] at ht
      split at ht
      · have ht' := Option.some.inj ht
        injection ht' with h1 h2
        subst h2
        exact Nat.le_add_right _ _
      · have ht' := Option.some.inj ht
        injection ht' with h1 h2
        subst h2
        exact le_refl _
  · simp only [ParserHelper.advance_or]
    split <;> simp [ParserHelper.advance]
  · simp only [ParserHelper.next]
    cases hc : s.input[s.position]? <;> simp [ParserHelper.advance]
  · simp only [ParserHelper.next_or_end]
    cases hc : s.input[s.position]? <;> simp [ParserHelper.advance]
  · simp only [ParserHelper.expect, ParserHelper.next]
    cases hc : s.input[s.position]? with
    | none =>
      simp [ParserHelper.unexpected_end_of_input, ParserHelper.fail,
        ParserHelper.fail_at_position]
    | some b =>
      by_cases hb : b = c <;> simp [hb, ParserHelper.advance]
  · intro r t ht
    simp only [ParserHelper.expect_bytes] at ht
    cases hr : s.rest with
    | none => rw [hr] at ht; exact Option.noConfusion ht
    | some rr =>
      simp only [hr] at ht
      split at ht
      · have ht' := Option.some.inj ht
        injection ht' with h1 h2
        subst h2
        exact Nat.le_add_right _ _
      · have ht' := Option.some.inj ht
        injection ht' with h1 h2
        subst h2
        exact le_refl _
  · simp only [ParserHelper.expect_pred, ParserHelper.next]
    cases hc : s.input[s.position]? with
    | none =>
      simp [ParserHelper.unexpected_end_of_input, ParserHelper.fail,
        ParserHelper.fail_at_position]
    | some b =>
      by_cases hb : pred b = true <;> simp [hb, ParserHelper.advance]
  · exact (skip_main (s.input.length - s.position) s pred (le_refl _)).2.1

/-- Witness for C6: the hypotheses of the `advance_over` and `expect_bytes`
conjuncts discharged on buffer `[7, 8]` at position 0. -/
theorem position_monotone_witness :
    ((ParserHelper.mk [7, 8] 0).advance_over [7] =
        some (true, ParserHelper.mk [7, 8] 1) ∧
      (ParserHelper.mk [7, 8] 0).position ≤
        (ParserHelper.mk [7, 8] 1).position) ∧
    ((ParserHelper.mk [7, 8] 0).expect_bytes [7, 8] TestErr.a =
        some (Except.ok (), ParserHelper.mk [7, 8] 2) ∧
      (ParserHelper.mk [7, 8] 0).position ≤
        (ParserHelper.mk [7, 8] 2).position) :=
  ⟨⟨by decide,
    (position_monotone TestErr (ParserHelper.mk [7, 8] 0) 1 [7] 7 TestErr.a
      (fun _ => true)).2.1 true (ParserHelper.mk [7, 8] 1) (by decide)⟩,
   ⟨by decide,
    (position_monotone TestErr (ParserHelper.mk [7, 8] 0) 1 [7, 8] 7
      TestErr.a (fun _ => true)).2.2.2.2.2.2.1 (Except.ok ())
      (ParserHelper.mk [7, 8] 2) (by decide)⟩⟩

/-- C7: `skip` is idempotent — an immediately repeated `skip` with the same
predicate changes nothing; equivalently, after `skip pred` the cursor is at
or past the end of the buffer or looking at a byte the predicate rejects. -/
theorem skip_idempotent (s : ParserHelper) (pred : Nat → Bool) :
    (s.skip pred).skip pred = s.skip pred ∧
    (s.input.length ≤ (s.skip pred).position ∨
      ∃ b, (s.skip pred).peek_or_end = some b ∧ pred b = false) := by
  obtain ⟨hin, -, -, hstop⟩ :=
    skip_main (s.input.length - s.position) s pred (le_refl _)
  rcases hstop with hnone | ⟨b, hb, hpb⟩
  · refine ⟨ParserHelper.skip_of_peek_none _ _ hnone, Or.inl ?_⟩
    simp only [ParserHelper.peek_or_end] at hnone
    rw [← hin]
    by_contra hlt
    rw [List.getElem?_eq_getElem (by omega)] at hnone
    exact Option.noConfusion hnone
  · exact ⟨ParserHelper.skip_of_peek_false _ _ b hb hpb, Or.inr ⟨b, hb, hpb⟩⟩

/-- C10: `skip` terminates, never moves backwards, preserves the buffer, and
advances by at most `input.length - position` — each loop iteration that
does not return advances the position by exactly 1, so the position delta
bounds the number of iterations. (`skip` is defined by well-founded
recursion on exactly this measure, so totality is established by
construction.) -/
theorem skip_terminates (s : ParserHelper) (pred : Nat → Bool) :
    (s.skip pred).input = s.input ∧
    s.position ≤ (s.skip pred).position ∧
    (s.skip pred).position - s.position ≤
      s.input.length - s.position := by
  obtain ⟨h1, h2, h3, -⟩ :=
    skip_main (s.input.length - s.position) s pred (le_refl _)
  exact ⟨h1, h2, h3⟩

/-- C9: failure is atomic for `next`, `peek`, `expect_bytes`, `fail`,
`fail_at_position`, and `unexpected_end_of_input`: whenever one of them
returns an error the position is exactly what it was before the call. In
the embedding `peek`, `fail`, `fail_at_position`, and
`unexpected_end_of_input` borrow the cursor immutably and return no state,
so they cannot move the position by construction; the two state-passing
operations are covered by the first two conjuncts. The remaining conjuncts
establish the claim's contrast: `expect`, `expect_pred`, and `advance_or`
have failure paths that do move the position. -/
theorem failure_atomicity (E : Type) [Eoi E] :
    (∀ (s : ParserHelper) (er : Error E) (t : ParserHelper),
      s.next (E := E) = (Except.error er, t) → t = s) ∧
    (∀ (s : ParserHelper) (X : List Nat) (err : E) (er : Error E)
        (t : ParserHelper),
      s.expect_bytes X err = some (Except.error er, t) → t = s) ∧
    (∀ (err : E),
      ((ParserHelper.mk [5] 0).expect 6 err).1 = Except.error ⟨0, err⟩ ∧
      ((ParserHelper.mk [5] 0).expect 6 err).2.position = 1) ∧
    (∀ (err : E),
      ((ParserHelper.mk [5] 0).expect_pred (fun _ => false) err).1 =
          Except.error ⟨0, err⟩ ∧
      ((ParserHelper.mk [5] 0).expect_pred (fun _ => false) err).2.position
          = 1) ∧
    (∀ (err : E),
      ((ParserHelper.mk [] 0).advance_or 1 err).1 =
          Except.error ⟨0, err⟩ ∧
      ((ParserHelper.mk [] 0).advance_or 1 err).2.position = 1) := by
  refine ⟨?_, ?_, ?_, ?_, ?_⟩
  · intro s er t ht
    simp only [ParserHelper.next] at ht
    cases hc : s.input[s.position]? with
    | none =>
      rw [hc] at ht
      injection ht with h1 h2
      exact h2.symm
    | some b =>
      rw [hc] at ht
      injection ht with h1 h2
      exact Except.noConfusion h1
  · intro s X err er t ht
    simp only [ParserHelper.expect_bytes] at ht
    cases hr : s.rest with
    | none => rw [hr] at ht; exact Option.noConfusion ht
    | some rr =>
      simp only [hr] at ht
      split at ht
      · have ht' := Option.some.inj ht
        injection ht' with h1 h2
        exact Except.noConfusion h1
      · have ht' := Option.some.inj ht
        injection ht' with h1 h2
        exact h2.symm
  · intro err
    constructor <;>
      simp [ParserHelper.expect, ParserHelper.next, ParserHelper.advance,
        ParserHelper.fail_at_position, Error.new]
  · intro err
    constructor <;>
      simp [ParserHelper.expect_pred, ParserHelper.next,
        ParserHelper.advance, ParserHelper.fail_at_position, Error.new]
  · intro err
    constructor <;>
      simp [ParserHelper.advance_or, ParserHelper.advance, ParserHelper.len,
        ParserHelper.fail_at_position, Error.new]

/-- Witness for C9: the `expect_bytes` atomicity conjunct discharged on the
concrete failing call over buffer `[7]`. -/
theorem failure_atomicity_witness :
    (ParserHelper.mk [7] 0).expect_bytes [9] TestErr.a =
      some (Except.error ⟨0, TestErr.a⟩, ParserHelper.mk [7] 0) ∧
    ParserHelper.mk [7] 0 = ParserHelper.mk [7] 0 :=
  ⟨by decide,
   (failure_atomicity TestErr).2.1 (ParserHelper.mk [7] 0) [9] TestErr.a
     ⟨0, TestErr.a⟩ (ParserHelper.mk [7] 0) (by decide)⟩
